import Mathlib

/-!
# Verification of the expense-store connection and CRUD layer

Shallow embedding of `main.go`: a `sync.Once`-guarded singleton MongoDB
client provider (`GetMongoClient`) and the six store operations
(`CreateExpense`, `CreateManyExpenses`, `GetExpensesByID`, `GetAllIssues`,
`DeleteExpense`, `DeleteAll`).

Modelling decisions, all stated where they are used:
* The MongoDB driver is the external collaborator.  Its nondeterminism
  (connect outcome, ping outcome, per-call driver failures, assigned ids)
  enters as explicit environment parameters; its deterministic document
  semantics (exact-match filtering, natural insertion order, first-match
  `FindOne` and `DeleteOne`) follow the driver contract the spec describes.
* `sync.Once.Do` serializes concurrent callers and establishes a
  happens-before edge from the body to every `Do` return, so a set of
  concurrent calls is modelled by an arbitrary serialization: a list of
  calls executed in sequence against the shared provider state.
* Driver-produced failures (connect, ping, transport, decode) are opaque
  coded errors; the sentinel `mongo.ErrNoDocuments` is produced by the
  driver only for a zero-match `FindOne` and by this layer's explicit
  empty-result check in `GetAllIssues`.
-/

/-- An opaque handle standing for `*mongo.Client`: handles are only stored
and compared here, never inspected, so a bare number suffices and `Option`
models Go's nil pointer. -/
abbrev MongoClient := Nat

/-- A document identifier (`primitive.ObjectID`); `0` plays the role of the
zero ObjectID of a transient value. -/
abbrev ObjectID := Nat

/-- Go `float64` amounts are only carried through the store, never computed
with, so a value is modelled by its 64-bit pattern. -/
abbrev Float64 := Nat

/-- Go `time.Time` dates are only carried through the store; modelled as an
integer timestamp. -/
abbrev GoTime := Int

/-- Name of the database (constant `DBName` in `main.go`). -/
def DBName : String := "expenses"

/-- Name of the collection (constant `ExpenseCollections` in `main.go`). -/
def ExpenseCollections : String := "expense"

/-- The configured endpoint (constant `URI` in `main.go`). -/
def URI : String := "mongodb://localhost:27017"

/-- Errors surfaced by this layer.  `errNoDocuments` is `mongo.ErrNoDocuments`,
the one sentinel the code itself produces and the driver returns for a
zero-match `FindOne`; every other connect, ping, transport or decode failure
is an opaque coded driver error (the driver never reports `ErrNoDocuments`
from connect, ping, insert or delete). -/
inductive GoError where
  | errNoDocuments : GoError
  | driver (code : Nat) : GoError
deriving DecidableEq, Repr

/-- The `Expense` struct of `main.go`: `_id`, `expenseID`, `title`, `amount`,
`date`. -/
structure Expense where
  ID : ObjectID
  ExpenseID : String
  Title : String
  Amount : Float64
  Date : GoTime
deriving DecidableEq, Repr

/-- The zero value of `Expense` (`result := Expense{}` in `GetExpensesByID`). -/
def emptyExpense : Expense :=
  { ID := 0, ExpenseID := "", Title := "", Amount := 0, Date := 0 }

/-- The package-level singleton state of `main.go`: the `sync.Once` guard
`mongoOnce` (has the do-once body fired), `clientInstance` and
`clientInstanceError`. -/
structure ConnState where
  onceDone : Bool
  clientInstance : Option MongoClient
  clientInstanceError : Option GoError
deriving DecidableEq, Repr

/-- Process start: guard not fired, nil client, nil error. -/
def initialConnState : ConnState :=
  { onceDone := false, clientInstance := none, clientInstanceError := none }

/-- The driver-side outcome of one initialization attempt: what
`mongo.Connect` returns (a possibly-nil client and a possible failure code)
and what `client.Ping` returns (a possible failure code). -/
structure ConnEnv where
  connectClient : Option MongoClient
  connectErr : Option Nat
  pingErr : Option Nat
deriving DecidableEq, Repr

/-- The body passed to `mongoOnce.Do` in `GetMongoClient` (`main.go` lines
44-56): connect, record the connect error if any, ping, record the ping
error if any (overwriting), then cache the client unconditionally. -/
def connectOnceBody (s : ConnState) (env : ConnEnv) : ConnState :=
  let e := s.clientInstanceError
  let e := match env.connectErr with
    | some c => some (GoError.driver c)
    | none => e
  let e := match env.pingErr with
    | some c => some (GoError.driver c)
    | none => e
  { onceDone := true, clientInstance := env.connectClient, clientInstanceError := e }

/-- What one `GetMongoClient()` call yields: the provider state after the
call, the returned handle and error, and (instrumentation for the
single-flight property) whether the once body executed during this call. -/
structure AcquireResult where
  state : ConnState
  client : Option MongoClient
  err : Option GoError
  ranInit : Bool
deriving DecidableEq, Repr

/-- `GetMongoClient` of `main.go`: run the once body if the guard has not
fired, then return the cached `clientInstance` and `clientInstanceError`. -/
def GetMongoClient (s : ConnState) (env : ConnEnv) : AcquireResult :=
  if s.onceDone then
    ⟨s, s.clientInstance, s.clientInstanceError, false⟩
  else
    let s2 := connectOnceBody s env
    ⟨s2, s2.clientInstance, s2.clientInstanceError, true⟩

/-- A serialized sequence of `GetMongoClient` calls against the shared
provider state (the serialization `sync.Once.Do` imposes on concurrent
callers): returns every caller's observed `(client, error)` outcome, the
final state, and how many of the calls executed the once body. -/
def runCalls (s : ConnState) : List ConnEnv →
    List (Option MongoClient × Option GoError) × ConnState × Nat
  | [] => ([], s, 0)
  | env :: rest =>
    let r := GetMongoClient s env
    let (outs, sEnd, n) := runCalls r.state rest
    ((r.client, r.err) :: outs, sEnd, n + (if r.ranInit then 1 else 0))

/-- A document stored in the `expense` collection, as the filters and the
decoder see it: either a well-formed document decoding to an `Expense`
(its `expenseID` field is that of the expense), or a document whose decode
into `Expense` fails with a driver error but whose `expenseID` field still
participates in exact-match filters. -/
inductive RawDoc where
  | good (e : Expense) : RawDoc
  | bad (key : String) (code : Nat) : RawDoc
deriving DecidableEq, Repr

/-- The `expenseID` field of a stored document, the key every exact-match
filter in `main.go` uses. -/
def RawDoc.expenseID : RawDoc → String
  | .good e => e.ExpenseID
  | .bad k _ => k

/-- Decoding a stored document into an `Expense` (`cur.Decode` /
`FindOne(...).Decode`). -/
def RawDoc.decode : RawDoc → Except GoError Expense
  | .good e => Except.ok e
  | .bad _ c => Except.error (GoError.driver c)

/-- The document operations a store call issues against the collection, in
order; an operation that fails to acquire a connection issues none. -/
inductive DocOp where
  | insertOne (e : Expense) : DocOp
  | insertMany (es : List Expense) : DocOp
  | findOne (key : String) : DocOp
  | find : DocOp
  | deleteOne (key : String) : DocOp
  | deleteMany : DocOp
deriving DecidableEq, Repr

/-- Outcome of a store operation: its result, the provider state after it,
the collection contents after it, and the document operations it issued. -/
structure StoreResult (α : Type) where
  res : α
  conn : ConnState
  db : List RawDoc
  ops : List DocOp
deriving DecidableEq, Repr

/-- `CreateExpense` of `main.go`: acquire the connection (propagating its
error with no document operation), then `InsertOne` the expense.  `newId` is
the identifier the store assigns on insert; `insertErr` a driver failure of
the insert, if any. -/
def CreateExpense (expense : Expense) (cs : ConnState) (cenv : ConnEnv)
    (db : List RawDoc) (newId : ObjectID) (insertErr : Option Nat) :
    StoreResult (Option GoError) :=
  let r := GetMongoClient cs cenv
  match r.err with
  | some e => ⟨some e, r.state, db, []⟩
  | none =>
    match insertErr with
    | some c => ⟨some (GoError.driver c), r.state, db, [DocOp.insertOne expense]⟩
    | none =>
      ⟨none, r.state, db ++ [RawDoc.good { expense with ID := newId }],
        [DocOp.insertOne expense]⟩

/-- `CreateManyExpenses` of `main.go`: box the slice element by element into
an interface slice (the identity on the carried values, preserving length
and order), acquire the connection (propagating its error with no document
operation), then `InsertMany` the boxed list in one bulk call.  `newIds`
gives the identifier assigned to the i-th inserted document; `insertErr` a
driver failure of the bulk insert, if any. -/
def CreateManyExpenses (list : List Expense) (cs : ConnState) (cenv : ConnEnv)
    (db : List RawDoc) (newIds : Nat → ObjectID) (insertErr : Option Nat) :
    StoreResult (Option GoError) :=
  let insertableList := list.map (fun v => v)
  let r := GetMongoClient cs cenv
  match r.err with
  | some e => ⟨some e, r.state, db, []⟩
  | none =>
    match insertErr with
    | some c => ⟨some (GoError.driver c), r.state, db, [DocOp.insertMany insertableList]⟩
    | none =>
      ⟨none, r.state,
        db ++ insertableList.mapIdx (fun i v => RawDoc.good { v with ID := newIds i }),
        [DocOp.insertMany insertableList]⟩

/-- `GetExpensesByID` of `main.go`: acquire the connection (propagating its
error with no document operation), then `FindOne` with the exact-match
filter on `expenseID` and decode the first match; a zero-match `FindOne`
yields `mongo.ErrNoDocuments` from the driver. -/
def GetExpensesByID (id : String) (cs : ConnState) (cenv : ConnEnv)
    (db : List RawDoc) : StoreResult (Expense × Option GoError) :=
  let result := emptyExpense
  let r := GetMongoClient cs cenv
  match r.err with
  | some e => ⟨(result, some e), r.state, db, []⟩
  | none =>
    match db.find? (fun d => d.expenseID == id) with
    | none => ⟨(result, some GoError.errNoDocuments), r.state, db, [DocOp.findOne id]⟩
    | some d =>
      match d.decode with
      | .error e => ⟨(result, some e), r.state, db, [DocOp.findOne id]⟩
      | .ok t => ⟨(t, none), r.state, db, [DocOp.findOne id]⟩

/-- The cursor loop of `GetAllIssues` (`main.go` lines 141-148): walk the
cursor, decode each document, return early with the decoded prefix on a
decode failure (without reaching the close), otherwise run to exhaustion.
Yields the accumulated expenses, the error if any, and whether the loop
exhausted the cursor (the only path on which `cur.Close` runs). -/
def getAllLoop : List RawDoc → List Expense → List Expense × Option GoError × Bool
  | [], issues => (issues, none, true)
  | d :: rest, issues =>
    match d.decode with
    | .error e => (issues, some e, false)
    | .ok t => getAllLoop rest (issues ++ [t])

/-- Outcome of `GetAllIssues`: the returned slice and error, the provider
state after the call, the collection contents, whether `cur.Close` was
reached, and the document operations issued. -/
structure FindAllResult where
  issues : List Expense
  err : Option GoError
  conn : ConnState
  db : List RawDoc
  cursorClosed : Bool
  ops : List DocOp
deriving DecidableEq, Repr

/-- `GetAllIssues` of `main.go`: acquire the connection (propagating its
error with no document operation), `Find` with the match-all filter
(`findErr` is a driver failure of the `Find` call, if any), iterate the
cursor, close it once exhausted, and report `mongo.ErrNoDocuments` when the
exhausted iteration produced an empty slice. -/
def GetAllIssues (cs : ConnState) (cenv : ConnEnv) (db : List RawDoc)
    (findErr : Option Nat) : FindAllResult :=
  let issues : List Expense := []
  let r := GetMongoClient cs cenv
  match r.err with
  | some e => ⟨issues, some e, r.state, db, false, []⟩
  | none =>
    match findErr with
    | some c => ⟨issues, some (GoError.driver c), r.state, db, false, [DocOp.find]⟩
    | none =>
      match getAllLoop db issues with
      | (iss, some e, closed) => ⟨iss, some e, r.state, db, closed, [DocOp.find]⟩
      | (iss, none, closed) =>
        if iss.length = 0 then
          ⟨iss, some GoError.errNoDocuments, r.state, db, closed, [DocOp.find]⟩
        else
          ⟨iss, none, r.state, db, closed, [DocOp.find]⟩

/-- The driver semantics of `DeleteOne` with an exact-match filter: remove
the first document whose `expenseID` field equals the key, if any. -/
def deleteFirstMatch (key : String) : List RawDoc → List RawDoc
  | [] => []
  | d :: rest => if d.expenseID == key then rest else d :: deleteFirstMatch key rest

/-- `DeleteExpense` of `main.go`: acquire the connection (propagating its
error with no document operation), then `DeleteOne` with the exact-match
filter on `expenseID`; the deleted count is discarded, so a zero-match
delete still returns success.  `deleteErr` is a driver failure of the
delete call, if any. -/
def DeleteExpense (code : String) (cs : ConnState) (cenv : ConnEnv)
    (db : List RawDoc) (deleteErr : Option Nat) : StoreResult (Option GoError) :=
  let r := GetMongoClient cs cenv
  match r.err with
  | some e => ⟨some e, r.state, db, []⟩
  | none =>
    match deleteErr with
    | some c => ⟨some (GoError.driver c), r.state, db, [DocOp.deleteOne code]⟩
    | none => ⟨none, r.state, deleteFirstMatch code db, [DocOp.deleteOne code]⟩

/-- `DeleteAll` of `main.go`: acquire the connection (propagating its error
with no document operation), then `DeleteMany` with the match-all filter.
`deleteErr` is a driver failure of the delete call, if any. -/
def DeleteAll (cs : ConnState) (cenv : ConnEnv) (db : List RawDoc)
    (deleteErr : Option Nat) : StoreResult (Option GoError) :=
  let r := GetMongoClient cs cenv
  match r.err with
  | some e => ⟨some e, r.state, db, []⟩
  | none =>
    match deleteErr with
    | some c => ⟨some (GoError.driver c), r.state, db, [DocOp.deleteMany]⟩
    | none => ⟨none, r.state, [], [DocOp.deleteMany]⟩

/-! ## Connection provider: helper lemmas -/

/-- A provider whose guard has fired is inert: every further call in a
serialized sequence returns the cached outcome and runs no initialization. -/
theorem runCalls_done (s : ConnState) (hs : s.onceDone = true) (envs : List ConnEnv) :
    runCalls s envs =
      (envs.map (fun _ => (s.clientInstance, s.clientInstanceError)), s, 0) := by
  induction envs with
  | nil => simp [runCalls]
  | cons e rest ih => simp [runCalls, GetMongoClient, hs, ih]

/-- Computation of a serialized call sequence from process start: the first
call runs the once body, every call observes the body's outcome. -/
theorem runCalls_fresh (env0 : ConnEnv) (envs : List ConnEnv) :
    runCalls initialConnState (env0 :: envs) =
      (((connectOnceBody initialConnState env0).clientInstance,
        (connectOnceBody initialConnState env0).clientInstanceError) ::
       envs.map (fun _ => ((connectOnceBody initialConnState env0).clientInstance,
         (connectOnceBody initialConnState env0).clientInstanceError)),
       connectOnceBody initialConnState env0, 1) := by
  have hdone : (connectOnceBody initialConnState env0).onceDone = true := rfl
  have h0 : GetMongoClient initialConnState env0 =
      ⟨connectOnceBody initialConnState env0,
       (connectOnceBody initialConnState env0).clientInstance,
       (connectOnceBody initialConnState env0).clientInstanceError, true⟩ := rfl
  simp [runCalls, h0, runCalls_done _ hdone]

/-! ## Claim theorems: connection provider -/

/-- Claim C1: in every serialization of a set of concurrent first-time
`GetMongoClient` calls (the serialization `sync.Once.Do` imposes), exactly
one connect-plus-ping once body executes, and every caller observes the
same single outcome: the client and error that body recorded, shared
success or shared failure. -/
theorem getMongoClient_single_flight (env0 : ConnEnv) (envs : List ConnEnv) :
    (runCalls initialConnState (env0 :: envs)).2.2 = 1 ∧
    ∀ o ∈ (runCalls initialConnState (env0 :: envs)).1,
      o = ((connectOnceBody initialConnState env0).clientInstance,
           (connectOnceBody initialConnState env0).clientInstanceError) := by
  rw [runCalls_fresh]
  refine ⟨rfl, ?_⟩
  intro o ho
  rcases List.mem_cons.mp ho with h | h
  · exact h
  · rcases List.mem_map.mp h with ⟨x, _, hx⟩
    exact hx.symm

/-- Claim C2: once the do-once guard has fired, every subsequent
`GetMongoClient` call returns the cached handle and recorded error
unchanged, runs no initialization, and leaves the state untouched; and the
guard is fired by the very first call, whatever its outcome, so the first
outcome is permanent for the life of the process. -/
theorem getMongoClient_outcome_permanent (s : ConnState) (env : ConnEnv)
    (h : s.onceDone = true) :
    GetMongoClient s env = ⟨s, s.clientInstance, s.clientInstanceError, false⟩ ∧
    ∀ env0 : ConnEnv, ((GetMongoClient initialConnState env0).state).onceDone = true := by
  refine ⟨?_, ?_⟩
  · simp [GetMongoClient, h]
  · intro env0
    rfl

/-- Witness for C2 at a fired state holding a client and no error. -/
theorem getMongoClient_outcome_permanent_witness :
    (⟨true, some 1, none⟩ : ConnState).onceDone = true ∧
    (GetMongoClient ⟨true, some 1, none⟩ ⟨none, none, none⟩ =
        ⟨⟨true, some 1, none⟩, some 1, none, false⟩ ∧
     ∀ env0 : ConnEnv, ((GetMongoClient initialConnState env0).state).onceDone = true) :=
  ⟨rfl, getMongoClient_outcome_permanent ⟨true, some 1, none⟩ ⟨none, none, none⟩ rfl⟩

/-- Counterexample to C3 as stated: when the connect step fails with error
code 1 and the ping also fails with error code 2, the callers of that
initialization round receive the ping error, not the connect error, so
"when the connect step fails its error is what callers receive" is false. -/
theorem getMongoClient_connect_error_not_returned :
    (GetMongoClient initialConnState ⟨none, some 1, some 2⟩).err =
      some (GoError.driver 2) ∧
    some (GoError.driver 2) ≠ some (GoError.driver 1) :=
  ⟨rfl, by decide⟩

/-- Claim C3 (amended): if the connect step or the ping fails during the
one-time initialization, a failure is recorded in the shared error variable
and returned to every caller of that round; the connect error is what
callers receive when the ping succeeds, while a ping failure is what they
receive whenever the ping fails (it overwrites a connect error). -/
theorem getMongoClient_init_failure_recorded (env : ConnEnv)
    (h : env.connectErr ≠ none ∨ env.pingErr ≠ none) :
    (∃ c, (GetMongoClient initialConnState env).err = some (GoError.driver c)) ∧
    (GetMongoClient initialConnState env).state.clientInstanceError =
      (GetMongoClient initialConnState env).err ∧
    (env.pingErr = none →
      (GetMongoClient initialConnState env).err = env.connectErr.map GoError.driver) ∧
    (∀ c, env.pingErr = some c →
      (GetMongoClient initialConnState env).err = some (GoError.driver c)) := by
  obtain ⟨cc, ce, pe⟩ := env
  rcases ce with _ | c1 <;> rcases pe with _ | c2 <;>
    simp_all [GetMongoClient, initialConnState, connectOnceBody]

/-- Witness for C3 (amended): connect fails with code 5, ping succeeds. -/
theorem getMongoClient_init_failure_recorded_witness :
    ((⟨none, some 5, none⟩ : ConnEnv).connectErr ≠ none ∨
     (⟨none, some 5, none⟩ : ConnEnv).pingErr ≠ none) ∧
    ((∃ c, (GetMongoClient initialConnState ⟨none, some 5, none⟩).err =
        some (GoError.driver c)) ∧
     (GetMongoClient initialConnState ⟨none, some 5, none⟩).state.clientInstanceError =
       (GetMongoClient initialConnState ⟨none, some 5, none⟩).err ∧
     ((⟨none, some 5, none⟩ : ConnEnv).pingErr = none →
       (GetMongoClient initialConnState ⟨none, some 5, none⟩).err =
         (⟨none, some 5, none⟩ : ConnEnv).connectErr.map GoError.driver) ∧
     (∀ c, (⟨none, some 5, none⟩ : ConnEnv).pingErr = some c →
       (GetMongoClient initialConnState ⟨none, some 5, none⟩).err =
         some (GoError.driver c))) :=
  ⟨Or.inl (by decide),
   getMongoClient_init_failure_recorded ⟨none, some 5, none⟩ (Or.inl (by decide))⟩

/-- Claim C9: the once body consults the ping outcome even when the connect
step already failed, and a failing ping's error overwrites the recorded
connect error; the client returned by the failed connect (possibly nil) is
still cached as the shared handle and handed to callers. -/
theorem getMongoClient_last_writer_wins (env : ConnEnv) (c1 c2 : Nat)
    (hc : env.connectErr = some c1) (hp : env.pingErr = some c2) :
    (GetMongoClient initialConnState env).err = some (GoError.driver c2) ∧
    (GetMongoClient initialConnState env).client = env.connectClient ∧
    (GetMongoClient initialConnState env).state.clientInstance = env.connectClient ∧
    (GetMongoClient initialConnState env).state.clientInstanceError =
      some (GoError.driver c2) := by
  obtain ⟨cc, ce, pe⟩ := env
  simp_all [GetMongoClient, initialConnState, connectOnceBody]

/-- Witness for C9: connect fails with code 1 returning a nil client, ping
fails with code 2; callers get error 2 and the nil client is cached. -/
theorem getMongoClient_last_writer_wins_witness :
    (⟨none, some 1, some 2⟩ : ConnEnv).connectErr = some 1 ∧
    (⟨none, some 1, some 2⟩ : ConnEnv).pingErr = some 2 ∧
    ((GetMongoClient initialConnState ⟨none, some 1, some 2⟩).err =
        some (GoError.driver 2) ∧
     (GetMongoClient initialConnState ⟨none, some 1, some 2⟩).client =
       (⟨none, some 1, some 2⟩ : ConnEnv).connectClient ∧
     (GetMongoClient initialConnState ⟨none, some 1, some 2⟩).state.clientInstance =
       (⟨none, some 1, some 2⟩ : ConnEnv).connectClient ∧
     (GetMongoClient initialConnState ⟨none, some 1, some 2⟩).state.clientInstanceError =
       some (GoError.driver 2)) :=
  ⟨rfl, rfl, getMongoClient_last_writer_wins ⟨none, some 1, some 2⟩ 1 2 rfl rfl⟩

/-! ## Store layer: helper lemmas -/

/-- A second `GetMongoClient` call, from the state any call leaves behind,
returns the first call's outcome and runs no initialization. -/
theorem getMongoClient_err_stable (cs : ConnState) (cenv cenv2 : ConnEnv) :
    GetMongoClient (GetMongoClient cs cenv).state cenv2 =
      ⟨(GetMongoClient cs cenv).state, (GetMongoClient cs cenv).client,
       (GetMongoClient cs cenv).err, false⟩ := by
  by_cases hs : cs.onceDone
  · simp [GetMongoClient, hs]
  · simp [GetMongoClient, hs, connectOnceBody]

/-- `List.find?` skips a prefix on which the predicate is false. -/
theorem find?_append_of_no_match (p : RawDoc → Bool) (db l : List RawDoc)
    (h : ∀ d ∈ db, p d = false) : (db ++ l).find? p = l.find? p := by
  induction db with
  | nil => rfl
  | cons d rest ih =>
    simp [List.find?, h d (List.mem_cons_self d rest),
      ih (fun x hx => h x (List.mem_cons_of_mem d hx))]

/-- `DeleteOne` removes at most one document. -/
theorem deleteFirstMatch_length (key : String) (db : List RawDoc) :
    db.length ≤ (deleteFirstMatch key db).length + 1 := by
  induction db with
  | nil => simp [deleteFirstMatch]
  | cons d rest ih =>
    cases hd : d.expenseID == key
    · simp [deleteFirstMatch, hd]
      omega
    · simp [deleteFirstMatch, hd]

/-- `DeleteOne` only removes documents: the collection after it is a
sublist of the collection before it. -/
theorem deleteFirstMatch_sublist (key : String) (db : List RawDoc) :
    (deleteFirstMatch key db).Sublist db := by
  induction db with
  | nil => simp [deleteFirstMatch]
  | cons d rest ih =>
    cases hd : d.expenseID == key
    · simp [deleteFirstMatch, hd]
      exact ih
    · simp [deleteFirstMatch, hd]

/-- A `DeleteOne` whose exact-match filter matches nothing leaves the
collection unchanged. -/
theorem deleteFirstMatch_no_match (key : String) (db : List RawDoc)
    (h : ∀ d ∈ db, d.expenseID ≠ key) : deleteFirstMatch key db = db := by
  induction db with
  | nil => rfl
  | cons d rest ih =>
    have hd : (d.expenseID == key) = false := by
      simpa using h d (List.mem_cons_self d rest)
    simp [deleteFirstMatch, hd, ih (fun x hx => h x (List.mem_cons_of_mem d hx))]

/-- `DeleteOne` removes exactly the first match when one exists. -/
theorem deleteFirstMatch_first (key : String) (pre : List RawDoc) (m : RawDoc)
    (rest : List RawDoc) (hpre : ∀ d ∈ pre, d.expenseID ≠ key)
    (hm : m.expenseID = key) :
    deleteFirstMatch key (pre ++ m :: rest) = pre ++ rest := by
  induction pre with
  | nil => simp [deleteFirstMatch, hm]
  | cons d p ih =>
    have hd : (d.expenseID == key) = false := by
      simpa using hpre d (List.mem_cons_self d p)
    simp [deleteFirstMatch, hd, ih (fun x hx => hpre x (List.mem_cons_of_mem d hx))]

/-- The cursor loop consumes a decodable prefix by accumulating it. -/
theorem getAllLoop_ok_segment (goods : List Expense) (rest : List RawDoc)
    (acc : List Expense) :
    getAllLoop (goods.map RawDoc.good ++ rest) acc = getAllLoop rest (acc ++ goods) := by
  induction goods generalizing acc with
  | nil => simp [getAllLoop]
  | cons g gs ih => simp [getAllLoop, RawDoc.decode, ih]

/-- The cursor loop reaches exhaustion exactly when every document on the
cursor decodes. -/
theorem getAllLoop_closed_iff (db : List RawDoc) (acc : List Expense) :
    (getAllLoop db acc).2.2 = true ↔ ∀ d ∈ db, ∃ x, d.decode = Except.ok x := by
  induction db generalizing acc with
  | nil => simp [getAllLoop]
  | cons d rest ih =>
    cases hd : d.decode with
    | error e => simp [getAllLoop, hd]
    | ok t => simp [getAllLoop, hd, ih]

/-! ## Claim theorems: store layer -/

/-- Claim C4: every store operation first resolves the shared connection
through `GetMongoClient`, and when that acquisition yields an error the
operation returns exactly that error, leaves the collection untouched, and
issues no document operation (no insert, find or delete). -/
theorem store_ops_propagate_acquire_error (cs : ConnState) (cenv : ConnEnv)
    (db : List RawDoc) (e : GoError) (exp : Expense) (list : List Expense)
    (id code : String) (newId : ObjectID) (newIds : Nat → ObjectID)
    (ie ime fe de dme : Option Nat)
    (h : (GetMongoClient cs cenv).err = some e) :
    CreateExpense exp cs cenv db newId ie =
      ⟨some e, (GetMongoClient cs cenv).state, db, []⟩ ∧
    CreateManyExpenses list cs cenv db newIds ime =
      ⟨some e, (GetMongoClient cs cenv).state, db, []⟩ ∧
    GetExpensesByID id cs cenv db =
      ⟨(emptyExpense, some e), (GetMongoClient cs cenv).state, db, []⟩ ∧
    GetAllIssues cs cenv db fe =
      ⟨[], some e, (GetMongoClient cs cenv).state, db, false, []⟩ ∧
    DeleteExpense code cs cenv db de =
      ⟨some e, (GetMongoClient cs cenv).state, db, []⟩ ∧
    DeleteAll cs cenv db dme =
      ⟨some e, (GetMongoClient cs cenv).state, db, []⟩ := by
  refine ⟨?_, ?_, ?_, ?_, ?_, ?_⟩ <;>
    simp [CreateExpense, CreateManyExpenses, GetExpensesByID, GetAllIssues,
      DeleteExpense, DeleteAll, h]

/-- Witness for C4: a provider permanently poisoned with error code 7
makes every operation fail with that error and touch nothing. -/
theorem store_ops_propagate_acquire_error_witness :
    (GetMongoClient ⟨true, none, some (GoError.driver 7)⟩ ⟨none, none, none⟩).err =
      some (GoError.driver 7) ∧
    (CreateExpense emptyExpense ⟨true, none, some (GoError.driver 7)⟩
        ⟨none, none, none⟩ [] 0 none =
      ⟨some (GoError.driver 7),
       (GetMongoClient ⟨true, none, some (GoError.driver 7)⟩ ⟨none, none, none⟩).state,
       [], []⟩ ∧
     CreateManyExpenses [] ⟨true, none, some (GoError.driver 7)⟩
        ⟨none, none, none⟩ [] (fun _ => 0) none =
      ⟨some (GoError.driver 7),
       (GetMongoClient ⟨true, none, some (GoError.driver 7)⟩ ⟨none, none, none⟩).state,
       [], []⟩ ∧
     GetExpensesByID "x" ⟨true, none, some (GoError.driver 7)⟩ ⟨none, none, none⟩ [] =
      ⟨(emptyExpense, some (GoError.driver 7)),
       (GetMongoClient ⟨true, none, some (GoError.driver 7)⟩ ⟨none, none, none⟩).state,
       [], []⟩ ∧
     GetAllIssues ⟨true, none, some (GoError.driver 7)⟩ ⟨none, none, none⟩ [] none =
      ⟨[], some (GoError.driver 7),
       (GetMongoClient ⟨true, none, some (GoError.driver 7)⟩ ⟨none, none, none⟩).state,
       [], false, []⟩ ∧
     DeleteExpense "x" ⟨true, none, some (GoError.driver 7)⟩ ⟨none, none, none⟩ [] none =
      ⟨some (GoError.driver 7),
       (GetMongoClient ⟨true, none, some (GoError.driver 7)⟩ ⟨none, none, none⟩).state,
       [], []⟩ ∧
     DeleteAll ⟨true, none, some (GoError.driver 7)⟩ ⟨none, none, none⟩ [] none =
      ⟨some (GoError.driver 7),
       (GetMongoClient ⟨true, none, some (GoError.driver 7)⟩ ⟨none, none, none⟩).state,
       [], []⟩) :=
  ⟨rfl, store_ops_propagate_acquire_error ⟨true, none, some (GoError.driver 7)⟩
    ⟨none, none, none⟩ [] (GoError.driver 7) emptyExpense [] "x" "x" 0 (fun _ => 0)
    none none none none none rfl⟩

/-- Counterexample to C5 as stated: on a collection holding one document
whose decode fails with driver error 7, iteration yields no decoded
documents, yet `GetAllIssues` reports that decode error, not
`mongo.ErrNoDocuments`. -/
theorem getAllIssues_no_decoded_docs_not_notfound :
    (GetAllIssues ⟨true, some 1, none⟩ ⟨none, none, none⟩
      [RawDoc.bad "k" 7] none).issues = [] ∧
    (GetAllIssues ⟨true, some 1, none⟩ ⟨none, none, none⟩
      [RawDoc.bad "k" 7] none).err = some (GoError.driver 7) ∧
    some (GoError.driver 7) ≠ some GoError.errNoDocuments :=
  ⟨rfl, rfl, by decide⟩

/-- Claim C5 (amended): `GetAllIssues` on a collection with zero documents
returns `mongo.ErrNoDocuments` (an empty collection is reported as a
not-found failure, never as an empty success); when iteration instead stops
on a decode failure before any document has been decoded, that decode error
is reported rather than the not-found error. -/
theorem getAllIssues_empty_collection_notfound (cs : ConnState) (cenv : ConnEnv)
    (h : (GetMongoClient cs cenv).err = none) :
    GetAllIssues cs cenv [] none =
      ⟨[], some GoError.errNoDocuments, (GetMongoClient cs cenv).state, [], true,
       [DocOp.find]⟩ := by
  simp [GetAllIssues, h, getAllLoop]

/-- Witness for C5 (amended) at a successfully initialized provider. -/
theorem getAllIssues_empty_collection_notfound_witness :
    (GetMongoClient ⟨true, some 1, none⟩ ⟨none, none, none⟩).err = none ∧
    GetAllIssues ⟨true, some 1, none⟩ ⟨none, none, none⟩ [] none =
      ⟨[], some GoError.errNoDocuments,
       (GetMongoClient ⟨true, some 1, none⟩ ⟨none, none, none⟩).state, [], true,
       [DocOp.find]⟩ :=
  ⟨rfl, getAllIssues_empty_collection_notfound ⟨true, some 1, none⟩
    ⟨none, none, none⟩ rfl⟩

/-- Counterexample to C6 as stated: with a document under external id "1d"
already in the collection, `CreateExpense` of a new expense with the same
external id followed by `GetExpensesByID "1d"` succeeds but returns the old
document (`FindOne` decodes the first match in natural order), whose title
differs from the created expense's title, with no interfering writer. -/
theorem create_then_find_duplicate_key_mismatch :
    (GetExpensesByID "1d"
        (CreateExpense ⟨0, "1d", "new title", 0, 0⟩ ⟨true, some 1, none⟩
          ⟨none, none, none⟩ [RawDoc.good ⟨5, "1d", "old title", 0, 0⟩] 6 none).conn
        ⟨none, none, none⟩
        (CreateExpense ⟨0, "1d", "new title", 0, 0⟩ ⟨true, some 1, none⟩
          ⟨none, none, none⟩ [RawDoc.good ⟨5, "1d", "old title", 0, 0⟩] 6 none).db).res
      = (⟨5, "1d", "old title", 0, 0⟩, none) ∧
    (⟨5, "1d", "old title", 0, 0⟩ : Expense).Title ≠
      (⟨0, "1d", "new title", 0, 0⟩ : Expense).Title := by
  refine ⟨?_, by decide⟩
  rfl

/-- Claim C6 (amended): for every transient expense `e`, `CreateExpense e`
followed by `GetExpensesByID e.ExpenseID`, with no interfering writer and
no document with that external id already in the collection, succeeds and
returns the stored expense, equal to `e` in every field (`expenseID`,
`title`, `amount`, `date`) except the store-assigned identifier. -/
theorem create_then_find_roundtrip (e : Expense) (cs : ConnState) (cenv : ConnEnv)
    (db : List RawDoc) (newId : ObjectID)
    (hconn : (GetMongoClient cs cenv).err = none)
    (hfresh : ∀ d ∈ db, d.expenseID ≠ e.ExpenseID) :
    (GetExpensesByID e.ExpenseID
        (CreateExpense e cs cenv db newId none).conn cenv
        (CreateExpense e cs cenv db newId none).db).res =
      ({ e with ID := newId }, none) ∧
    ({ e with ID := newId } : Expense).ExpenseID = e.ExpenseID ∧
    ({ e with ID := newId } : Expense).Title = e.Title ∧
    ({ e with ID := newId } : Expense).Amount = e.Amount ∧
    ({ e with ID := newId } : Expense).Date = e.Date := by
  have hc1 : CreateExpense e cs cenv db newId none =
      ⟨none, (GetMongoClient cs cenv).state,
       db ++ [RawDoc.good { e with ID := newId }], [DocOp.insertOne e]⟩ := by
    simp [CreateExpense, hconn]
  have hfalse : ∀ d ∈ db, (d.expenseID == e.ExpenseID) = false := by
    intro d hd
    simpa using hfresh d hd
  have hfind : (db ++ [RawDoc.good { e with ID := newId }]).find?
      (fun d => d.expenseID == e.ExpenseID) =
      some (RawDoc.good { e with ID := newId }) := by
    rw [find?_append_of_no_match _ db _ hfalse]
    simp [List.find?, RawDoc.expenseID]
  have h2 : (GetMongoClient (GetMongoClient cs cenv).state cenv).err = none := by
    rw [getMongoClient_err_stable cs cenv cenv]
    simpa using hconn
  refine ⟨?_, rfl, rfl, rfl, rfl⟩
  rw [hc1]
  simp [GetExpensesByID, h2, hfind, RawDoc.decode]

/-- Witness for C6 (amended): round trip of a concrete expense through an
empty collection on a successfully initialized provider. -/
theorem create_then_find_roundtrip_witness :
    (GetMongoClient ⟨true, some 1, none⟩ ⟨none, none, none⟩).err = none ∧
    (∀ d ∈ ([] : List RawDoc), d.expenseID ≠ ("1d" : String)) ∧
    ((GetExpensesByID (⟨0, "1d", "lunch", 35, 9⟩ : Expense).ExpenseID
        (CreateExpense ⟨0, "1d", "lunch", 35, 9⟩ ⟨true, some 1, none⟩
          ⟨none, none, none⟩ [] 6 none).conn ⟨none, none, none⟩
        (CreateExpense ⟨0, "1d", "lunch", 35, 9⟩ ⟨true, some 1, none⟩
          ⟨none, none, none⟩ [] 6 none).db).res =
      ({ (⟨0, "1d", "lunch", 35, 9⟩ : Expense) with ID := 6 }, none) ∧
     ({ (⟨0, "1d", "lunch", 35, 9⟩ : Expense) with ID := 6 } : Expense).ExpenseID =
       (⟨0, "1d", "lunch", 35, 9⟩ : Expense).ExpenseID ∧
     ({ (⟨0, "1d", "lunch", 35, 9⟩ : Expense) with ID := 6 } : Expense).Title =
       (⟨0, "1d", "lunch", 35, 9⟩ : Expense).Title ∧
     ({ (⟨0, "1d", "lunch", 35, 9⟩ : Expense) with ID := 6 } : Expense).Amount =
       (⟨0, "1d", "lunch", 35, 9⟩ : Expense).Amount ∧
     ({ (⟨0, "1d", "lunch", 35, 9⟩ : Expense) with ID := 6 } : Expense).Date =
       (⟨0, "1d", "lunch", 35, 9⟩ : Expense).Date) :=
  ⟨rfl, by simp,
   create_then_find_roundtrip ⟨0, "1d", "lunch", 35, 9⟩ ⟨true, some 1, none⟩
     ⟨none, none, none⟩ [] 6 rfl (by simp)⟩

/-- Claim C7: when the connection is available, `CreateManyExpenses`
submits all its input expenses in one bulk insert; the interface-boxing
step is the identity, so the submitted document sequence is exactly the
input list: same length, and the i-th submitted document is the i-th input
expense, with nothing dropped, duplicated or reordered. -/
theorem createMany_submits_in_order (list : List Expense) (cs : ConnState)
    (cenv : ConnEnv) (db : List RawDoc) (newIds : Nat → ObjectID)
    (insertErr : Option Nat)
    (h : (GetMongoClient cs cenv).err = none) :
    (CreateManyExpenses list cs cenv db newIds insertErr).ops =
      [DocOp.insertMany (list.map (fun v => v))] ∧
    list.map (fun v => v) = list ∧
    (list.map (fun v => v)).length = list.length ∧
    ∀ i (h1 : i < (list.map (fun v => v)).length) (h2 : i < list.length),
      (list.map (fun v => v)).get ⟨i, h1⟩ = list.get ⟨i, h2⟩ := by
  have hmap : list.map (fun v => v) = list := by simp
  refine ⟨?_, hmap, by rw [hmap], ?_⟩
  · cases hi : insertErr <;> simp [CreateManyExpenses, h, hi]
  · intro i h1 h2
    simp

/-- Witness for C7: a concrete two-element bulk insert on a successfully
initialized provider. -/
theorem createMany_submits_in_order_witness :
    (GetMongoClient ⟨true, some 1, none⟩ ⟨none, none, none⟩).err = none ∧
    ((CreateManyExpenses [⟨0, "a", "ta", 1, 0⟩, ⟨0, "b", "tb", 2, 0⟩]
        ⟨true, some 1, none⟩ ⟨none, none, none⟩ [] (fun i => i + 10) none).ops =
      [DocOp.insertMany
        (([⟨0, "a", "ta", 1, 0⟩, ⟨0, "b", "tb", 2, 0⟩] : List Expense).map
          (fun v => v))] ∧
     ([⟨0, "a", "ta", 1, 0⟩, ⟨0, "b", "tb", 2, 0⟩] : List Expense).map (fun v => v) =
       [⟨0, "a", "ta", 1, 0⟩, ⟨0, "b", "tb", 2, 0⟩] ∧
     (([⟨0, "a", "ta", 1, 0⟩, ⟨0, "b", "tb", 2, 0⟩] : List Expense).map
       (fun v => v)).length =
       ([⟨0, "a", "ta", 1, 0⟩, ⟨0, "b", "tb", 2, 0⟩] : List Expense).length ∧
     ∀ i (h1 : i < (([⟨0, "a", "ta", 1, 0⟩, ⟨0, "b", "tb", 2, 0⟩] : List Expense).map
         (fun v => v)).length)
       (h2 : i < ([⟨0, "a", "ta", 1, 0⟩, ⟨0, "b", "tb", 2, 0⟩] : List Expense).length),
       (([⟨0, "a", "ta", 1, 0⟩, ⟨0, "b", "tb", 2, 0⟩] : List Expense).map
         (fun v => v)).get ⟨i, h1⟩ =
         ([⟨0, "a", "ta", 1, 0⟩, ⟨0, "b", "tb", 2, 0⟩] : List Expense).get ⟨i, h2⟩) :=
  ⟨rfl, createMany_submits_in_order [⟨0, "a", "ta", 1, 0⟩, ⟨0, "b", "tb", 2, 0⟩]
    ⟨true, some 1, none⟩ ⟨none, none, none⟩ [] (fun i => i + 10) none rfl⟩

/-- Claim C8: when the connection is available, `DeleteExpense` performs a
`DeleteOne` with the exact-equality filter on `expenseID`: it removes at
most one document and only ever removes documents (the collection after is
a sublist of the collection before); when duplicates exist the first match
is the one removed; when zero documents match, the collection is unchanged
and the call still returns success; and it never returns the not-found
error for a zero-match delete. -/
theorem deleteExpense_delete_one_semantics (code : String) (cs : ConnState)
    (cenv : ConnEnv) (db : List RawDoc) (deleteErr : Option Nat)
    (h : (GetMongoClient cs cenv).err = none) :
    db.length ≤ (DeleteExpense code cs cenv db deleteErr).db.length + 1 ∧
    ((DeleteExpense code cs cenv db deleteErr).db).Sublist db ∧
    ((∀ d ∈ db, d.expenseID ≠ code) → deleteErr = none →
      (DeleteExpense code cs cenv db deleteErr).res = none ∧
      (DeleteExpense code cs cenv db deleteErr).db = db) ∧
    (∀ pre m rest, db = pre ++ m :: rest → (∀ d ∈ pre, d.expenseID ≠ code) →
      m.expenseID = code → deleteErr = none →
      (DeleteExpense code cs cenv db deleteErr).db = pre ++ rest) ∧
    (DeleteExpense code cs cenv db deleteErr).res ≠ some GoError.errNoDocuments := by
  cases hde : deleteErr with
  | some c =>
    refine ⟨?_, ?_, ?_, ?_, ?_⟩ <;> simp [DeleteExpense, h]
  | none =>
    refine ⟨?_, ?_, ?_, ?_, ?_⟩
    · simp only [DeleteExpense, h]
      simpa using deleteFirstMatch_length code db
    · simp only [DeleteExpense, h]
      simpa using deleteFirstMatch_sublist code db
    · intro hnone _
      simp only [DeleteExpense, h]
      simpa using deleteFirstMatch_no_match code db hnone
    · intro pre m rest hdb hpre hm _
      simp only [DeleteExpense, h]
      simpa [hdb] using deleteFirstMatch_first code pre m rest hpre hm
    · simp [DeleteExpense, h]

/-- Witness for C8: deleting key "a" from a two-document collection holding
a duplicate of that key, on a successfully initialized provider. -/
theorem deleteExpense_delete_one_semantics_witness :
    (GetMongoClient ⟨true, some 1, none⟩ ⟨none, none, none⟩).err = none ∧
    (([RawDoc.good ⟨1, "a", "t1", 0, 0⟩, RawDoc.good ⟨2, "a", "t2", 0, 0⟩] :
        List RawDoc).length ≤
      (DeleteExpense "a" ⟨true, some 1, none⟩ ⟨none, none, none⟩
        [RawDoc.good ⟨1, "a", "t1", 0, 0⟩, RawDoc.good ⟨2, "a", "t2", 0, 0⟩]
        none).db.length + 1 ∧
     ((DeleteExpense "a" ⟨true, some 1, none⟩ ⟨none, none, none⟩
        [RawDoc.good ⟨1, "a", "t1", 0, 0⟩, RawDoc.good ⟨2, "a", "t2", 0, 0⟩]
        none).db).Sublist
       [RawDoc.good ⟨1, "a", "t1", 0, 0⟩, RawDoc.good ⟨2, "a", "t2", 0, 0⟩] ∧
     ((∀ d ∈ ([RawDoc.good ⟨1, "a", "t1", 0, 0⟩, RawDoc.good ⟨2, "a", "t2", 0, 0⟩] :
          List RawDoc), d.expenseID ≠ "a") → (none : Option Nat) = none →
       (DeleteExpense "a" ⟨true, some 1, none⟩ ⟨none, none, none⟩
         [RawDoc.good ⟨1, "a", "t1", 0, 0⟩, RawDoc.good ⟨2, "a", "t2", 0, 0⟩]
         none).res = none ∧
       (DeleteExpense "a" ⟨true, some 1, none⟩ ⟨none, none, none⟩
         [RawDoc.good ⟨1, "a", "t1", 0, 0⟩, RawDoc.good ⟨2, "a", "t2", 0, 0⟩]
         none).db =
         [RawDoc.good ⟨1, "a", "t1", 0, 0⟩, RawDoc.good ⟨2, "a", "t2", 0, 0⟩]) ∧
     (∀ pre m rest,
       ([RawDoc.good ⟨1, "a", "t1", 0, 0⟩, RawDoc.good ⟨2, "a", "t2", 0, 0⟩] :
         List RawDoc) = pre ++ m :: rest →
       (∀ d ∈ pre, d.expenseID ≠ "a") → m.expenseID = "a" →
       (none : Option Nat) = none →
       (DeleteExpense "a" ⟨true, some 1, none⟩ ⟨none, none, none⟩
         [RawDoc.good ⟨1, "a", "t1", 0, 0⟩, RawDoc.good ⟨2, "a", "t2", 0, 0⟩]
         none).db = pre ++ rest) ∧
     (DeleteExpense "a" ⟨true, some 1, none⟩ ⟨none, none, none⟩
       [RawDoc.good ⟨1, "a", "t1", 0, 0⟩, RawDoc.good ⟨2, "a", "t2", 0, 0⟩]
       none).res ≠ some GoError.errNoDocuments) :=
  ⟨rfl, deleteExpense_delete_one_semantics "a" ⟨true, some 1, none⟩
    ⟨none, none, none⟩
    [RawDoc.good ⟨1, "a", "t1", 0, 0⟩, RawDoc.good ⟨2, "a", "t2", 0, 0⟩] none rfl⟩

/-- Claim C10: when a document fails to decode during `GetAllIssues`
iteration, the function returns at once with that decode error together
with the prefix of already-decoded expenses, and on that early-return path
the cursor close is never reached; the close runs exactly on the runs whose
iteration reaches exhaustion, that is, when every document on the cursor
decodes. -/
theorem getAllIssues_decode_failure_path (cs : ConnState) (cenv : ConnEnv)
    (goods : List Expense) (k : String) (c : Nat) (rest : List RawDoc)
    (h : (GetMongoClient cs cenv).err = none) :
    GetAllIssues cs cenv (goods.map RawDoc.good ++ RawDoc.bad k c :: rest) none =
      ⟨goods, some (GoError.driver c), (GetMongoClient cs cenv).state,
       goods.map RawDoc.good ++ RawDoc.bad k c :: rest, false, [DocOp.find]⟩ ∧
    ∀ db : List RawDoc, (GetAllIssues cs cenv db none).cursorClosed = true ↔
      ∀ d ∈ db, ∃ x, d.decode = Except.ok x := by
  constructor
  · have hloop : getAllLoop (goods.map RawDoc.good ++ RawDoc.bad k c :: rest) [] =
        (goods, some (GoError.driver c), false) := by
      rw [getAllLoop_ok_segment]
      simp [getAllLoop, RawDoc.decode]
    simp [GetAllIssues, h, hloop]
  · intro db
    have hiff := getAllLoop_closed_iff db []
    rcases hl : getAllLoop db [] with ⟨iss, oerr, closed⟩
    rw [hl] at hiff
    rcases oerr with _ | e
    · by_cases hz : iss.length = 0
      · simp only [GetAllIssues, h, hl, hz]
        simpa using hiff
      · simp only [GetAllIssues, h, hl, hz]
        simpa using hiff
    · simp only [GetAllIssues, h, hl]
      simpa using hiff

/-- Witness for C10: one good document followed by an undecodable one, on a
successfully initialized provider. -/
theorem getAllIssues_decode_failure_path_witness :
    (GetMongoClient ⟨true, some 1, none⟩ ⟨none, none, none⟩).err = none ∧
    (GetAllIssues ⟨true, some 1, none⟩ ⟨none, none, none⟩
        (([⟨0, "a", "t", 0, 0⟩] : List Expense).map RawDoc.good ++
          RawDoc.bad "b" 7 :: []) none =
      ⟨[⟨0, "a", "t", 0, 0⟩], some (GoError.driver 7),
       (GetMongoClient ⟨true, some 1, none⟩ ⟨none, none, none⟩).state,
       ([⟨0, "a", "t", 0, 0⟩] : List Expense).map RawDoc.good ++
         RawDoc.bad "b" 7 :: [], false, [DocOp.find]⟩ ∧
     ∀ db : List RawDoc,
       (GetAllIssues ⟨true, some 1, none⟩ ⟨none, none, none⟩ db none).cursorClosed =
         true ↔ ∀ d ∈ db, ∃ x, d.decode = Except.ok x) :=
  ⟨rfl, getAllIssues_decode_failure_path ⟨true, some 1, none⟩ ⟨none, none, none⟩
    [⟨0, "a", "t", 0, 0⟩] "b" 7 [] rfl⟩
